/-
  Verification of the email-CSV-to-Notion reconciliation pipeline
  (src/process_emails.py) against its natural-language specification.

  Shallow embedding conventions:
  * Python strings are Lean `String`s; most character-level work is done on
    `List Char` (`String.toList`), which keeps every definition executable
    and kernel-reducible.
  * `datetime.now()` is ambient state in the source; the model passes the
    current date explicitly as a `Date` value (field `today` in the parser
    configurations, or a `today` argument).
  * `datetime.strptime` is modelled per concrete format string used by the
    source (CPython `_strptime` semantics: `%Y` is exactly four digits,
    `%m`/`%d`/`%H`/`%M`/`%S` are one or two digits whose admissible ranges
    coincide with the ranges enforced below, month names are matched
    case-insensitively, and a parse succeeds only when the whole string is
    consumed and the resulting calendar date is valid).  `strftime` of
    `'%Y-%m-%d'` is modelled after the glibc strftime CPython delegates to:
    `%m` and `%d` are zero-padded to two digits, while `%Y` renders the year
    as a plain decimal *without* padding (a year below 1000 yields fewer
    than four digits).  Every date the program handles has `year ≤ 9999`
    (the `datetime` MAXYEAR), so the model fixes no behaviour above that.
  * Exceptions are modelled with `Option`: `none` where the source catches
    an exception (row skipped / function returns `None`).
-/
import Mathlib

namespace EmailCsv

/-! ## Calendar dates (model of `datetime` date values) -/

structure Date where
  year : Nat
  month : Nat
  day : Nat
deriving DecidableEq, Repr

def isLeapYear (y : Nat) : Bool :=
  (y % 4 == 0 && y % 100 != 0) || y % 400 == 0

def daysInMonth (y m : Nat) : Nat :=
  if m = 2 then (if isLeapYear y then 29 else 28)
  else if m = 4 ∨ m = 6 ∨ m = 9 ∨ m = 11 then 30
  else 31

/-- Validity of a calendar date, as enforced by the `datetime` constructor
    (`MINYEAR = 1`, `MAXYEAR = 9999`). -/
def dateOk (y m d : Nat) : Bool :=
  1 ≤ y && y ≤ 9999 && 1 ≤ m && m ≤ 12 && 1 ≤ d && d ≤ daysInMonth y m

def mkChecked (y m d : Nat) : Option Date :=
  if dateOk y m d then some ⟨y, m, d⟩ else none

/-! ## Digit characters and zero-padded formatting -/

def pad2L (n : Nat) : List Char :=
  [Nat.digitChar (n / 10 % 10), Nat.digitChar (n % 10)]

def pad4L (n : Nat) : List Char :=
  [Nat.digitChar (n / 1000 % 10), Nat.digitChar (n / 100 % 10),
   Nat.digitChar (n / 10 % 10), Nat.digitChar (n % 10)]

/-- The `%Y` token of glibc strftime: the year as an unpadded decimal.
    The case split covers every `datetime`-representable year (`≤ 9999`);
    larger years cannot reach `strftime` in this program. -/
def yearDigitsL (n : Nat) : List Char :=
  if n < 10 then [Nat.digitChar n]
  else if n < 100 then [Nat.digitChar (n / 10 % 10), Nat.digitChar (n % 10)]
  else if n < 1000 then
    [Nat.digitChar (n / 100 % 10), Nat.digitChar (n / 10 % 10), Nat.digitChar (n % 10)]
  else pad4L n

/-- `dt.strftime('%Y-%m-%d')` as a character list: unpadded year (glibc
    `%Y`), two-digit month and day (`%m`, `%d`). -/
def fmtDateL (d : Date) : List Char :=
  yearDigitsL d.year ++ '-' :: (pad2L d.month ++ '-' :: pad2L d.day)

/-- `dt.strftime('%Y-%m-%d')`. -/
def fmtDate (d : Date) : String := String.mk (fmtDateL d)

/-! ## Small string utilities modelling Python built-ins -/

/-- `str.strip()` on a character list. -/
def pyStripL (l : List Char) : List Char :=
  ((l.dropWhile Char.isWhitespace).reverse.dropWhile Char.isWhitespace).reverse

/-- `str.strip()`. -/
def pyStrip (s : String) : String := String.mk (pyStripL s.toList)

def lowerL (l : List Char) : List Char := l.map Char.toLower

/-- `str.lower()` (ASCII-adequate model). -/
def pyLower (s : String) : String := String.mk (lowerL s.toList)

/-- `str.isdigit()` (ASCII-adequate model: nonempty and all decimal digits). -/
def pyIsdigit (s : String) : Bool :=
  !s.toList.isEmpty && s.toList.all Char.isDigit

/-- Decimal value of a digit string (model of `int(...)` on digit strings). -/
def digitsVal (l : List Char) : Nat :=
  l.foldl (fun a c => a * 10 + (c.toNat - 48)) 0

/-- Split a character list at every occurrence of `c`
    (model of `str.split(c)`: always returns at least one chunk). -/
def splitOnChar (c : Char) : List Char → List (List Char)
  | [] => [[]]
  | a :: t =>
    let r := splitOnChar c t
    if a = c then [] :: r
    else
      match r with
      | h :: t' => (a :: h) :: t'
      | [] => [[a]]

/-- `str.endswith(suf)`. -/
def pyEndsWith (s suf : String) : Bool :=
  suf.toList.isSuffixOf s.toList

/-! ## `datetime.strptime` models, one per format used by the source -/

/-- One or two decimal digits (the `%m`/`%d`/`%H`/`%M`/`%S` token shape). -/
def parse12 : List Char → Option Nat
  | [a] => if a.isDigit then some (a.toNat - 48) else none
  | [a, b] => if a.isDigit && b.isDigit then
      some ((a.toNat - 48) * 10 + (b.toNat - 48)) else none
  | _ => none

/-- Exactly four decimal digits (the `%Y` token shape). -/
def parseExact4 : List Char → Option Nat
  | [a, b, c, d] =>
    if a.isDigit && b.isDigit && c.isDigit && d.isDigit then
      some (((a.toNat - 48) * 10 + (b.toNat - 48)) * 100 +
            ((c.toNat - 48) * 10 + (d.toNat - 48)))
    else none
  | _ => none

/-- Split into exactly three chunks at `sep`. -/
def parse3 (sep : Char) (l : List Char) : Option (List Char × List Char × List Char) :=
  match splitOnChar sep l with
  | [a, b, c] => some (a, b, c)
  | _ => none

/-- Split into exactly two chunks at `sep`. -/
def parse2 (sep : Char) (l : List Char) : Option (List Char × List Char) :=
  match splitOnChar sep l with
  | [a, b] => some (a, b)
  | _ => none

/-- `strptime(s, '%Y-%m-%d')`. -/
def parseYMDdash (l : List Char) : Option Date := do
  let (ys, ms, ds) ← parse3 '-' l
  let y ← parseExact4 ys
  let m ← parse12 ms
  let d ← parse12 ds
  mkChecked y m d

/-- `strptime(s, '%m/%d/%Y')`. -/
def parseMDYslash (l : List Char) : Option Date := do
  let (ms, ds, ys) ← parse3 '/' l
  let m ← parse12 ms
  let d ← parse12 ds
  let y ← parseExact4 ys
  mkChecked y m d

/-- `strptime(s, '%d/%m/%Y')`. -/
def parseDMYslash (l : List Char) : Option Date := do
  let (ds, ms, ys) ← parse3 '/' l
  let d ← parse12 ds
  let m ← parse12 ms
  let y ← parseExact4 ys
  mkChecked y m d

/-- `strptime(s, '%d-%m-%Y')`. -/
def parseDMYdash (l : List Char) : Option Date := do
  let (ds, ms, ys) ← parse3 '-' l
  let d ← parse12 ds
  let m ← parse12 ms
  let y ← parseExact4 ys
  mkChecked y m d

/-- `strptime(s, '%Y/%m/%d')`. -/
def parseYMDslash (l : List Char) : Option Date := do
  let (ys, ms, ds) ← parse3 '/' l
  let y ← parseExact4 ys
  let m ← parse12 ms
  let d ← parse12 ds
  mkChecked y m d

/-- Validity of the `%H:%M:%S` tail (`datetime` rejects second ≥ 60, so the
    leap-second alternatives of the `%S` token never survive construction). -/
def timeOk (l : List Char) : Bool :=
  match splitOnChar ':' l with
  | [hh, mm, ss] =>
    match parse12 hh, parse12 mm, parse12 ss with
    | some h, some m, some s => h ≤ 23 && m ≤ 59 && s ≤ 59
    | _, _, _ => false
  | _ => false

/-- `strptime(s, '%Y-%m-%d %H:%M:%S')` (date component only; the time-of-day
    is validated and discarded, since only the date is ever formatted). -/
def parseYMDdashTime (l : List Char) : Option Date := do
  let (dp, tp) ← parse2 ' ' l
  let d ← parseYMDdash dp
  if timeOk tp then some d else none

/-- `strptime(s, '%m/%d/%Y %H:%M:%S')` (date component only). -/
def parseMDYslashTime (l : List Char) : Option Date := do
  let (dp, tp) ← parse2 ' ' l
  let d ← parseMDYslash dp
  if timeOk tp then some d else none

/-- The ordered format list of `_parse_date` (lines 332-347): first success
    wins. -/
def tryFullFormatsL (l : List Char) : Option Date :=
  (parseYMDdash l).orElse fun _ =>
    (parseMDYslash l).orElse fun _ =>
      (parseDMYslash l).orElse fun _ =>
        (parseYMDdashTime l).orElse fun _ =>
          (parseMDYslashTime l).orElse fun _ =>
            (parseDMYdash l).orElse fun _ =>
              parseYMDslash l

/-- `_parse_date` (lines 325-353): empty input and total parse failure both
    fall back to today's date; the `except Exception` arm (line 352) repeats
    the same fallback. -/
def parse_date (today : Date) (s : String) : String :=
  if (pyStripL s.toList).isEmpty then fmtDate today
  else
    match tryFullFormatsL (pyStripL s.toList) with
    | some d => fmtDate d
    | none => fmtDate today

/-! ## Year-less date parsing (`_parse_date_with_year`, lines 355-377) -/

/-- `strptime(s, '%m/%d')` followed by `dt.replace(year=year)`.  `strptime`
    validates the month/day at its default year 1900 (not a leap year, so
    Feb 29 never parses), hence `replace(year=...)` can never raise. -/
def parseMDslash (year : Nat) (l : List Char) : Option Date := do
  let (ms, ds) ← parse2 '/' l
  let m ← parse12 ms
  let d ← parse12 ds
  match mkChecked 1900 m d with
  | some _ => some ⟨year, m, d⟩
  | none => none

/-- `strptime(s, '%d/%m')` followed by `dt.replace(year=year)`. -/
def parseDMslash (year : Nat) (l : List Char) : Option Date := do
  let (ds, ms) ← parse2 '/' l
  let d ← parse12 ds
  let m ← parse12 ms
  match mkChecked 1900 m d with
  | some _ => some ⟨year, m, d⟩
  | none => none

def abbrMonthNames : List String :=
  ["jan", "feb", "mar", "apr", "may", "jun",
   "jul", "aug", "sep", "oct", "nov", "dec"]

def fullMonthNames : List String :=
  ["january", "february", "march", "april", "may", "june", "july",
   "august", "september", "october", "november", "december"]

/-- `strptime(s, '%b %d')` / `strptime(s, '%B %d')` followed by
    `dt.replace(year=year)`: a month name (matched case-insensitively),
    a whitespace run (the literal space in the format matches one or more
    whitespace characters), and a one-or-two-digit day. -/
def parseMonthName (names : List String) (year : Nat) (l : List Char) : Option Date := do
  let mt := l.takeWhile (fun c => !c.isWhitespace)
  let rest := l.drop mt.length
  if rest.isEmpty then none
  else
    let dayTok := rest.dropWhile Char.isWhitespace
    let i ← names.findIdx? (fun n => n.toList = lowerL mt)
    let d ← parse12 dayTok
    match mkChecked 1900 (i + 1) d with
    | some _ => some ⟨year, i + 1, d⟩
    | none => none

/-- The ordered year-less format list of `_parse_date_with_year`
    (lines 358-363): first success wins. -/
def tryYearlessL (year : Nat) (l : List Char) : Option Date :=
  (parseMDslash year l).orElse fun _ =>
    (parseDMslash year l).orElse fun _ =>
      (parseMonthName abbrMonthNames year l).orElse fun _ =>
        parseMonthName fullMonthNames year l

/-- `_parse_date_with_year` (lines 355-377).  When no year-less format
    matches, the code falls back to `_parse_date` (line 374).  The
    `except Exception: return f"{year}-01-01"` arm (lines 376-377) is
    unreachable: `strptime` failures are consumed by the inner
    `except ValueError` (line 370), `_parse_date` never raises, and
    `dt.replace(year=...)` cannot raise for a month/day pair that was valid
    at the default year 1900. -/
def parse_date_with_year (today : Date) (year : Nat) (s : String) : String :=
  match tryYearlessL year s.toList with
  | some d => fmtDate d
  | none => parse_date today s

/-! ## Numeric-token check and `float()` model -/

/-- `s.replace('.', '', 1)`: remove the first `'.'` only. -/
def removeFirstDotL : List Char → List Char
  | [] => []
  | c :: t => if c = '.' then t else c :: removeFirstDotL t

/-- The row-validity gate `order_id.replace('.', '', 1).isdigit()`
    (lines 253 and 298). -/
def isNumericToken (s : String) : Bool :=
  let l := removeFirstDotL s.toList
  !l.isEmpty && l.all Char.isDigit

/-- Decimal-literal model of `float(s)` (sign, digits, at most one dot,
    surrounding whitespace stripped).  Scientific notation, `inf`/`nan` and
    underscores are not modelled; on those this model is stricter, which
    only enlarges the set of silently skipped rows. -/
def parseDecimalL (l : List Char) : Option Rat :=
  match splitOnChar '.' l with
  | [ip] =>
    if !ip.isEmpty && ip.all Char.isDigit then some (mkRat (digitsVal ip) 1) else none
  | [ip, fp] =>
    if !(ip.isEmpty && fp.isEmpty) && ip.all Char.isDigit && fp.all Char.isDigit then
      some (mkRat (digitsVal ip * 10 ^ fp.length + digitsVal fp) (10 ^ fp.length))
    else none
  | _ => none

def pyFloat (s : String) : Option Rat :=
  match pyStripL s.toList with
  | '+' :: t => parseDecimalL t
  | '-' :: t => (parseDecimalL t).map (fun q => -q)
  | t => parseDecimalL t

/-! ## CSV parsing model (`csv.DictReader` restricted to quote-free input)

The `csv` module's quoting rules are not exercised by any claim; the model
splits lines at `'\n'` and fields at `','`, which coincides with
`csv.reader` on input free of `'"'` and `'\r'`.  `DictReader` details that
are modelled faithfully: the header is the *first* row (even when empty),
empty data rows are skipped, a row shorter than the header yields `None`
for the missing fields (`restval`), on which `.strip()` raises and the row
is silently skipped, and `row.get(field, default)` returns the default only
when the field is absent from the header.  Header names are assumed
distinct (duplicate header names shadow through `dict(zip(...))`). -/

structure Entry where
  source : String
  order_amount : Rat
  order_id : String
  order_date : String
deriving DecidableEq, Repr

/-- Field list of one CSV line (`csv.reader` yields `[]` for a blank line). -/
def fieldsOfLine (l : List Char) : List String :=
  if l.isEmpty then [] else (splitOnChar ',' l).map String.mk

/-- Index of `field` in the header (last occurrence, mirroring
    `dict(zip(fieldnames, row))` where a repeated key keeps its last value). -/
def lastIdxOf (field : String) (header : List String) : Option Nat :=
  ((header.zip (List.range header.length)).filterMap
    (fun p => if p.1 = field then some p.2 else none)).getLast?

/-- `row.get(field, ...)` through the `DictReader` dict:
    `none` = field absent from the header (default used);
    `some none` = field present but the row was short (`restval = None`);
    `some (some v)` = actual value. -/
def rowGetRaw (header row : List String) (field : String) : Option (Option String) :=
  match lastIdxOf field header with
  | none => none
  | some i => some row[i]?

/-- `row.get(field, '')` where a `None` value later raises on `.strip()`:
    `none` models that raised exception (row skipped). -/
def rowGetStr (header row : List String) (field : String) : Option String :=
  match rowGetRaw header row field with
  | none => some ""
  | some o => o

/-- `float(row.get(amount_field, 0))`: absent field gives `float(0)`;
    a `None` value or an unparsable string raises (row skipped). -/
def amountOf (header row : List String) (field : String) : Option Rat :=
  match rowGetRaw header row field with
  | none => some (mkRat 0 1)
  | some none => none
  | some (some v) => pyFloat v

structure Csv1Config where
  sourceName : String
  amountField : String
  idField : String
  dateField : String
  today : Date

/-- Per-row body of `parse_csv_source1`'s loop (lines 243-265).
    `none` = row skipped (explicit `continue` or caught exception). -/
def processRow1 (cfg : Csv1Config) (header row : List String) : Option Entry :=
  match rowGetStr header row cfg.idField, rowGetStr header row cfg.dateField with
  | some oidRaw, some dateRaw =>
    if pyStrip oidRaw = "" || pyStrip dateRaw = "" then none
    else if !isNumericToken (pyStrip oidRaw) then none
    else
      match amountOf header row cfg.amountField with
      | some amt =>
        some ⟨cfg.sourceName, amt, pyStrip oidRaw, parse_date cfg.today (pyStrip dateRaw)⟩
      | none => none
  | _, _ => none

/-- `parse_csv_source1` (lines 232-267). -/
def parse_csv_source1 (cfg : Csv1Config) (content : String) : List Entry :=
  match splitOnChar '\n' content.toList with
  | [] => []
  | h :: t =>
    ((t.map fieldsOfLine).filter (fun r => !r.isEmpty)).filterMap
      (processRow1 cfg (fieldsOfLine h))

structure Csv2Config where
  sourceName : String
  amountField : String
  idField : String
  dateField : String
  skipRows : Nat
  today : Date

/-- `list(row.values())[0]` followed by `.strip()`: with an empty header the
    dict holds only the `restkey` entry whose value is a list, so `.strip()`
    raises (`none`); with a short row the first header field still has a
    value exactly when the row is nonempty. -/
def firstColVal (header row : List String) : Option String :=
  match header, row with
  | [], _ => none
  | _ :: _, [] => none
  | _ :: _, v :: _ => some v

def summaryLabels : List String := ["total", "summary", "subtotal", "grand total"]

/-- Per-row body of `parse_csv_source2`'s loop (lines 288-321).
    `none` = row skipped. -/
def processRow2 (cfg : Csv2Config) (header row : List String) : Option Entry :=
  match rowGetStr header row cfg.dateField, rowGetStr header row cfg.idField with
  | some dateRaw, some oidRaw =>
    if pyStrip oidRaw = "" || pyStrip dateRaw = "" then none
    else if !isNumericToken (pyStrip oidRaw) then none
    else
      match firstColVal header row with
      | none => none
      | some fcv =>
        if summaryLabels.contains (pyLower (pyStrip fcv)) then none
        else if parse_date_with_year cfg.today cfg.today.year (pyStrip dateRaw) = "" ||
            pyStrip (parse_date_with_year cfg.today cfg.today.year (pyStrip dateRaw)) = "" then
          none
        else
          match amountOf header row cfg.amountField with
          | some amt =>
            some ⟨cfg.sourceName, amt, pyStrip oidRaw,
              parse_date_with_year cfg.today cfg.today.year (pyStrip dateRaw)⟩
          | none => none
  | _, _ => none

/-- The `DictReader` stage shared by `parse_csv_source2` after its own line
    handling. -/
def rowsToEntries2 (cfg : Csv2Config) (header : List String)
    (rows : List (List String)) : List Entry :=
  rows.filterMap (processRow2 cfg header)

/-- The line list seen by `parse_csv_source2`'s `DictReader`: strip the whole
    content, split into lines, optionally drop `skip_rows` leading lines
    (only when more than `skip_rows` lines are present). -/
def csv2lines (cfg : Csv2Config) (content : String) : List (List Char) :=
  if cfg.skipRows > 0 &&
      decide (cfg.skipRows < (splitOnChar '\n' (pyStripL content.toList)).length) then
    (splitOnChar '\n' (pyStripL content.toList)).drop cfg.skipRows
  else splitOnChar '\n' (pyStripL content.toList)

/-- `parse_csv_source2` (lines 269-323). -/
def parse_csv_source2 (cfg : Csv2Config) (content : String) : List Entry :=
  match csv2lines cfg content with
  | [] => []
  | h :: t =>
    rowsToEntries2 cfg (fieldsOfLine h)
      ((t.map fieldsOfLine).filter (fun r => !r.isEmpty))

/-! ## Reconciliation engine (`check_notion_entry_exists`,
`create_or_update_notion_entry`, lines 379-449)

The Notion database is modelled as a list of pages with distinct page ids;
`databases.query` with a number-equality filter returns the matching pages,
of which the code uses the first.  Network failures are not modelled (the
code maps them to "skipped"). -/

/-- The property payload written on both the create and the update path
    (lines 415-435): the property names are configuration, the values are
    what matters. -/
structure PageProps where
  source : String
  amount : Rat
  orderIdNum : Int
  dateStart : String
  checkbox : Bool
deriving DecidableEq, Repr

structure NotionPage where
  pageId : Nat
  props : PageProps
deriving DecidableEq, Repr

/-- `int(order_id) if order_id.isdigit() else 0` — the coercion used both in
    the query filter (line 387) and the written id property (line 423). -/
def pyIntOr0 (oid : String) : Int :=
  if pyIsdigit oid then (digitsVal oid.toList : Int) else 0

/-- `check_notion_entry_exists` (lines 379-396): first page whose numeric
    `Order ID` property equals the coerced key. -/
def check_notion_entry_exists (store : List NotionPage) (oid : String) : Option Nat :=
  (store.find? (fun p => p.props.orderIdNum == pyIntOr0 oid)).map (·.pageId)

/-- The `properties` dict built at lines 415-435 (`todayS` models
    `datetime.now().strftime('%Y-%m-%d')` at line 427). -/
def mkProps (todayS : String) (e : Entry) : PageProps :=
  { source := e.source
    amount := e.order_amount
    orderIdNum := pyIntOr0 e.order_id
    dateStart :=
      if e.order_date ≠ "" && pyStrip e.order_date ≠ "" then e.order_date else todayS
    checkbox := true }

/-- A fresh page id for `pages.create` (Notion assigns a new unique id;
    the model takes one strictly above every existing id). -/
def freshPageId (store : List NotionPage) : Nat :=
  (store.map (·.pageId)).foldr max 0 + 1

/-- `create_or_update_notion_entry` (lines 398-449): skip on blank id, then
    update the found page in place or create a new one. -/
def create_or_update_notion_entry (todayS : String) (store : List NotionPage)
    (e : Entry) : List NotionPage :=
  if e.order_id = "" || pyStrip e.order_id = "" then store
  else
    match check_notion_entry_exists store e.order_id with
    | some pid =>
      store.map (fun p => if p.pageId = pid then { p with props := mkProps todayS e } else p)
    | none => store ++ [⟨freshPageId store, mkProps todayS e⟩]

/-! ## Attachment extraction (`extract_attachment`, lines 105-129) -/

/-- One node of the message content tree, with the fields `extract_attachment`
    reads: the declared filename, the attachment reference
    (`part['body'].get('attachmentId')`, where `none` stands for a missing
    reference), and the nested sub-parts. -/
inductive Part : Type where
  | node (filename : String) (attachmentId : Option String) (children : List Part)

def Part.filename : Part → String
  | .node f _ _ => f

def Part.attachmentId : Part → Option String
  | .node _ a _ => a

def Part.children : Part → List Part
  | .node _ _ c => c

/-- `extract_attachment` (lines 105-129) over the top-level part list
    `message['payload']['parts']`.  `fetch` models the
    `attachments().get(...)` call followed by base64 url-safe decoding and
    UTF-8 decoding; `fetch a = none` models any exception on that path,
    which the surrounding `except` turns into `None` for the whole call.
    A part with a `.csv` filename but a missing (or empty, hence falsy)
    attachment id does not end the loop. -/
def extract_attachment (fetch : String → Option String) : List Part → Option String
  | [] => none
  | p :: rest =>
    if pyEndsWith p.filename ".csv" then
      match p.attachmentId with
      | some aid => if aid = "" then extract_attachment fetch rest else fetch aid
      | none => extract_attachment fetch rest
    else extract_attachment fetch rest

/-- The predicate selecting a qualifying part: `.csv` filename together with
    a truthy attachment reference. -/
def csvPart (p : Part) : Bool :=
  pyEndsWith p.filename ".csv" && p.attachmentId.getD "" ≠ ""

/-- Modelled from the spec (§4.4): the claimed *pre-order scan over the
    whole tree* — visit each node before its children, children before later
    siblings, and return the fetched text of the first qualifying node.
    This is the comparison point for the refinement claim about
    `extract_attachment`; the code itself never recurses. -/
def extractAttachmentPreorder (fetch : String → Option String) : List Part → Option String
  | [] => none
  | .node f aid kids :: rest =>
    if pyEndsWith f ".csv" && aid.getD "" ≠ "" then fetch (aid.getD "")
    else
      match extractAttachmentPreorder fetch kids with
      | some r => some r
      | none => extractAttachmentPreorder fetch rest

/-! ## Link extraction (`extract_csv_link`, lines 131-209), plain-text stage

The plain-text body is modelled as the list of its whitespace-separated
tokens, assumed free of `<`, `>` and `"` — exactly the domain on which the
three `re.findall` scans over `body_text` behave as whole-token matchers
(the character class `[^\s<>"]` extends every match to the token boundary).
Each regex becomes a Boolean predicate on a token:

* lines 190-192, `https?://[^\s<>"]+\.csv[^\s<>"]*` (IGNORECASE): a scheme
  prefix, at least one character, then `.csv`;
* lines 195-197, `https?://[^\s<>"]*s3\.amazonaws\.com[^\s<>"]+`
  (IGNORECASE): a scheme prefix, `s3.amazonaws.com` anywhere after it, and
  —because of the final `+`— at least one character *after* the domain;
* lines 200-203, `https?://[^\s<>"]+` (no IGNORECASE, so a lowercase
  scheme), filtered by `'csv' in link.lower() or 'export' in link.lower()`. -/

def containsSub (hay pat : List Char) : Bool :=
  hay.tails.any (fun t => pat.isPrefixOf t)

/-- The token after its `http://` / `https://` prefix, matched
    case-insensitively (for the IGNORECASE patterns). -/
def schemeRestCI (t : List Char) : Option (List Char) :=
  if "http://".toList.isPrefixOf (lowerL t) then some (t.drop 7)
  else if "https://".toList.isPrefixOf (lowerL t) then some (t.drop 8)
  else none

/-- The token after a lowercase `http://` / `https://` prefix (for the
    case-sensitive generic pattern of line 200). -/
def schemeRestExact (t : List Char) : Option (List Char) :=
  if "http://".toList.isPrefixOf t then some (t.drop 7)
  else if "https://".toList.isPrefixOf t then some (t.drop 8)
  else none

/-- Token matches `https?://[^\s<>"]+\.csv[^\s<>"]*` (IGNORECASE):
    `.csv` must start at least one character after the scheme. -/
def csvLinkTok (t : String) : Bool :=
  match schemeRestCI t.toList with
  | some r => containsSub (lowerL (r.drop 1)) ".csv".toList
  | none => false

/-- Token matches `https?://[^\s<>"]*s3\.amazonaws\.com[^\s<>"]+`
    (IGNORECASE): the domain must be followed by at least one character. -/
def s3Tok (t : String) : Bool :=
  match schemeRestCI t.toList with
  | some r => containsSub (lowerL r.dropLast) "s3.amazonaws.com".toList
  | none => false

/-- Token matches the generic URL pattern and carries the weak `csv`/`export`
    keyword (lines 200-203). -/
def keywordTok (t : String) : Bool :=
  match schemeRestExact t.toList with
  | some _ =>
    containsSub (lowerL t.toList) "csv".toList ||
      containsSub (lowerL t.toList) "export".toList
  | none => false

/-- The plain-text fallback chain of `extract_csv_link` (lines 189-205):
    `.csv` URLs first, then storage-domain URLs, then keyword URLs, each
    "first match wins". -/
def textLinkScan (toks : List String) : Option String :=
  match toks.find? csvLinkTok with
  | some t => some t
  | none =>
    match toks.find? s3Tok with
    | some t => some t
    | none => toks.find? keywordTok

/-- `extract_csv_link` in the case the collected HTML body is empty: the
    whole `if body_html:` block (lines 172-186) is skipped and only the
    plain-text fallback chain runs. -/
def extract_csv_link_textOnly (textToks : List String) : Option String :=
  textLinkScan textToks

/-- Well-formedness of a `YYYY-MM-DD` string: ten characters in the 4-2-2
    digit/dash shape with a month in 1..12 and a day in 1..31. -/
def isWellFormedDate (s : String) : Bool :=
  match s.toList with
  | [y1, y2, y3, y4, s1, m1, m2, s2, d1, d2] =>
    y1.isDigit && y2.isDigit && y3.isDigit && y4.isDigit &&
    s1 == '-' && s2 == '-' &&
    m1.isDigit && m2.isDigit && d1.isDigit && d2.isDigit &&
    (let mv := (m1.toNat - 48) * 10 + (m2.toNat - 48)
     let dv := (d1.toNat - 48) * 10 + (d2.toNat - 48)
     decide (1 ≤ mv) && decide (mv ≤ 12) && decide (1 ≤ dv) && decide (dv ≤ 31))
  | _ => false

/-! ## Helper lemmas -/

lemma digitChar_lt10_isDigit : ∀ n < 10, (Nat.digitChar n).isDigit = true := by decide

lemma digitChar_lt10_toNat : ∀ n < 10, (Nat.digitChar n).toNat = 48 + n := by decide

lemma digitChar_lt10_not_ws : ∀ n < 10, (Nat.digitChar n).isWhitespace = false := by decide

lemma digitChar_lt10_ne_dash : ∀ n < 10, Nat.digitChar n ≠ '-' := by decide

lemma digitChar_mod_isDigit (n : Nat) : (Nat.digitChar (n % 10)).isDigit = true :=
  digitChar_lt10_isDigit _ (Nat.mod_lt _ (by norm_num))

lemma digitChar_mod_toNat (n : Nat) : (Nat.digitChar (n % 10)).toNat = 48 + n % 10 :=
  digitChar_lt10_toNat _ (Nat.mod_lt _ (by norm_num))

lemma digitChar_mod_not_ws (n : Nat) : (Nat.digitChar (n % 10)).isWhitespace = false :=
  digitChar_lt10_not_ws _ (Nat.mod_lt _ (by norm_num))

lemma digitChar_mod_ne_dash (n : Nat) : Nat.digitChar (n % 10) ≠ '-' :=
  digitChar_lt10_ne_dash _ (Nat.mod_lt _ (by norm_num))

lemma splitOnChar_not_mem {c : Char} {l : List Char} (h : c ∉ l) :
    splitOnChar c l = [l] := by
  induction l with
  | nil => rfl
  | cons a t ih =>
    have ha : a ≠ c := fun hac => h (hac ▸ List.mem_cons_self a t)
    have ht : c ∉ t := fun hct => h (List.mem_cons_of_mem a hct)
    simp [splitOnChar, ha, ih ht]

lemma splitOnChar_append {c : Char} {l₁ : List Char} (l₂ : List Char) (h : c ∉ l₁) :
    splitOnChar c (l₁ ++ c :: l₂) = l₁ :: splitOnChar c l₂ := by
  induction l₁ with
  | nil => simp [splitOnChar]
  | cons a t ih =>
    have ha : a ≠ c := fun hac => h (hac ▸ List.mem_cons_self a t)
    have ht : c ∉ t := fun hct => h (List.mem_cons_of_mem a hct)
    simp only [List.cons_append, splitOnChar, ha, if_false, List.append_eq]
    rw [ih ht]

lemma dropWhile_all_neg {p : Char → Bool} {l : List Char}
    (h : ∀ c ∈ l, p c = false) : l.dropWhile p = l := by
  cases l with
  | nil => rfl
  | cons a t => simp [List.dropWhile, h a (List.mem_cons_self a t)]

lemma pyStripL_eq_self {l : List Char} (h : ∀ c ∈ l, c.isWhitespace = false) :
    pyStripL l = l := by
  unfold pyStripL
  rw [dropWhile_all_neg h, dropWhile_all_neg (fun c hc => h c (List.mem_reverse.mp hc)),
    List.reverse_reverse]

lemma dash_not_ws : ('-').isWhitespace = false := by decide

lemma yearDigits_eq_pad4 {n : Nat} (h : 1000 ≤ n) : yearDigitsL n = pad4L n := by
  unfold yearDigitsL
  rw [if_neg (by omega), if_neg (by omega), if_neg (by omega)]

lemma yearDigitsL_not_ws (n : Nat) : ∀ c ∈ yearDigitsL n, c.isWhitespace = false := by
  intro c hc
  unfold yearDigitsL at hc
  split_ifs at hc with h1 h2 h3
  · simp only [List.mem_singleton] at hc
    subst hc
    exact digitChar_lt10_not_ws n h1
  · simp only [List.mem_cons, List.not_mem_nil, or_false] at hc
    rcases hc with rfl | rfl <;> exact digitChar_mod_not_ws _
  · simp only [List.mem_cons, List.not_mem_nil, or_false] at hc
    rcases hc with rfl | rfl | rfl <;> exact digitChar_mod_not_ws _
  · simp only [pad4L, List.mem_cons, List.not_mem_nil, or_false] at hc
    rcases hc with rfl | rfl | rfl | rfl <;> exact digitChar_mod_not_ws _

lemma fmtDateL_not_ws (d : Date) : ∀ c ∈ fmtDateL d, c.isWhitespace = false := by
  intro c hc
  unfold fmtDateL at hc
  rw [List.mem_append] at hc
  rcases hc with hc | hc
  · exact yearDigitsL_not_ws _ c hc
  · rcases List.mem_cons.mp hc with rfl | hc
    · exact dash_not_ws
    · rw [List.mem_append] at hc
      rcases hc with hc | hc
      · simp only [pad2L, List.mem_cons, List.not_mem_nil, or_false] at hc
        rcases hc with rfl | rfl <;> exact digitChar_mod_not_ws _
      · rcases List.mem_cons.mp hc with rfl | hc
        · exact dash_not_ws
        · simp only [pad2L, List.mem_cons, List.not_mem_nil, or_false] at hc
          rcases hc with rfl | rfl <;> exact digitChar_mod_not_ws _

lemma orElse_eq_some {α : Type} {a : Option α} {f : Unit → Option α} {x : α} :
    (a.orElse f) = some x ↔ a = some x ∨ (a = none ∧ f () = some x) := by
  cases a <;> simp [Option.orElse]

lemma mkChecked_some {y m d : Nat} {dt : Date} (h : mkChecked y m d = some dt) :
    dateOk dt.year dt.month dt.day = true ∧ dt = ⟨y, m, d⟩ := by
  unfold mkChecked at h
  split at h
  · cases h; exact ⟨by assumption, rfl⟩
  · cases h

lemma daysInMonth_le_31 (y m : Nat) : daysInMonth y m ≤ 31 := by
  unfold daysInMonth
  split_ifs <;> omega

lemma dateOk_bounds {y m d : Nat} (h : dateOk y m d = true) :
    1 ≤ y ∧ y ≤ 9999 ∧ 1 ≤ m ∧ m ≤ 12 ∧ 1 ≤ d ∧ d ≤ 31 := by
  simp only [dateOk, Bool.and_eq_true, decide_eq_true_eq] at h
  have := daysInMonth_le_31 y m
  omega

lemma parse12_pad2 {m : Nat} (h : m ≤ 99) : parse12 (pad2L m) = some m := by
  simp only [pad2L, parse12, digitChar_mod_isDigit, Bool.and_self, if_true,
    digitChar_mod_toNat]
  congr 1
  omega

lemma parseExact4_pad4 {y : Nat} (h : y ≤ 9999) : parseExact4 (pad4L y) = some y := by
  simp only [pad4L, parseExact4, digitChar_mod_isDigit, Bool.and_self, if_true,
    digitChar_mod_toNat]
  congr 1
  omega

lemma dash_not_mem_pad4 (n : Nat) : '-' ∉ pad4L n := by
  simp only [pad4L, List.mem_cons, List.not_mem_nil, or_false]
  intro h
  rcases h with h | h | h | h <;> exact digitChar_mod_ne_dash _ h.symm

lemma dash_not_mem_pad2 (n : Nat) : '-' ∉ pad2L n := by
  simp only [pad2L, List.mem_cons, List.not_mem_nil, or_false]
  intro h
  rcases h with h | h <;> exact digitChar_mod_ne_dash _ h.symm

lemma parseYMDdash_fmt (d : Date) (h : dateOk d.year d.month d.day = true)
    (h1000 : 1000 ≤ d.year) :
    parseYMDdash (fmtDateL d) = some d := by
  obtain ⟨y, m, dd⟩ := d
  obtain ⟨_, hy, _, hm, _, hd⟩ := dateOk_bounds h
  have h1000' : 1000 ≤ y := h1000
  have hsplit : splitOnChar '-' (fmtDateL ⟨y, m, dd⟩) = [pad4L y, pad2L m, pad2L dd] := by
    unfold fmtDateL
    rw [yearDigits_eq_pad4 h1000']
    rw [splitOnChar_append _ (dash_not_mem_pad4 y),
      splitOnChar_append _ (dash_not_mem_pad2 m),
      splitOnChar_not_mem (dash_not_mem_pad2 dd)]
  simp only [parseYMDdash, parse3, hsplit, parseExact4_pad4 hy,
    parse12_pad2 (le_trans hm (by norm_num)), parse12_pad2 (le_trans hd (by norm_num)),
    Option.bind_eq_bind, Option.some_bind, mkChecked, h, if_true]

lemma tryFullFormatsL_fmt (d : Date) (h : dateOk d.year d.month d.day = true)
    (h1000 : 1000 ≤ d.year) :
    tryFullFormatsL (fmtDateL d) = some d := by
  simp [tryFullFormatsL, parseYMDdash_fmt d h h1000, Option.orElse]

lemma parseYMDdash_ok {l : List Char} {dt : Date} (h : parseYMDdash l = some dt) :
    dateOk dt.year dt.month dt.day = true := by
  simp only [parseYMDdash, Option.bind_eq_bind, Option.bind_eq_some] at h
  obtain ⟨⟨ys, ms, ds⟩, _, y, _, m, _, d, _, hmk⟩ := h
  exact (mkChecked_some hmk).1

lemma parseMDYslash_ok {l : List Char} {dt : Date} (h : parseMDYslash l = some dt) :
    dateOk dt.year dt.month dt.day = true := by
  simp only [parseMDYslash, Option.bind_eq_bind, Option.bind_eq_some] at h
  obtain ⟨⟨ms, ds, ys⟩, _, m, _, d, _, y, _, hmk⟩ := h
  exact (mkChecked_some hmk).1

lemma parseDMYslash_ok {l : List Char} {dt : Date} (h : parseDMYslash l = some dt) :
    dateOk dt.year dt.month dt.day = true := by
  simp only [parseDMYslash, Option.bind_eq_bind, Option.bind_eq_some] at h
  obtain ⟨⟨ds, ms, ys⟩, _, d, _, m, _, y, _, hmk⟩ := h
  exact (mkChecked_some hmk).1

lemma parseDMYdash_ok {l : List Char} {dt : Date} (h : parseDMYdash l = some dt) :
    dateOk dt.year dt.month dt.day = true := by
  simp only [parseDMYdash, Option.bind_eq_bind, Option.bind_eq_some] at h
  obtain ⟨⟨ds, ms, ys⟩, _, d, _, m, _, y, _, hmk⟩ := h
  exact (mkChecked_some hmk).1

lemma parseYMDslash_ok {l : List Char} {dt : Date} (h : parseYMDslash l = some dt) :
    dateOk dt.year dt.month dt.day = true := by
  simp only [parseYMDslash, Option.bind_eq_bind, Option.bind_eq_some] at h
  obtain ⟨⟨ys, ms, ds⟩, _, y, _, m, _, d, _, hmk⟩ := h
  exact (mkChecked_some hmk).1

lemma parseYMDdashTime_ok {l : List Char} {dt : Date} (h : parseYMDdashTime l = some dt) :
    dateOk dt.year dt.month dt.day = true := by
  simp only [parseYMDdashTime, Option.bind_eq_bind, Option.bind_eq_some] at h
  obtain ⟨⟨dp, tp⟩, _, d0, hd0, hif⟩ := h
  split at hif
  · cases hif; exact parseYMDdash_ok hd0
  · cases hif

lemma parseMDYslashTime_ok {l : List Char} {dt : Date} (h : parseMDYslashTime l = some dt) :
    dateOk dt.year dt.month dt.day = true := by
  simp only [parseMDYslashTime, Option.bind_eq_bind, Option.bind_eq_some] at h
  obtain ⟨⟨dp, tp⟩, _, d0, hd0, hif⟩ := h
  split at hif
  · cases hif; exact parseMDYslash_ok hd0
  · cases hif

lemma tryFullFormatsL_ok {l : List Char} {dt : Date} (h : tryFullFormatsL l = some dt) :
    dateOk dt.year dt.month dt.day = true := by
  simp only [tryFullFormatsL] at h
  rw [orElse_eq_some] at h
  rcases h with h | ⟨_, h⟩
  · exact parseYMDdash_ok h
  rw [orElse_eq_some] at h
  rcases h with h | ⟨_, h⟩
  · exact parseMDYslash_ok h
  rw [orElse_eq_some] at h
  rcases h with h | ⟨_, h⟩
  · exact parseDMYslash_ok h
  rw [orElse_eq_some] at h
  rcases h with h | ⟨_, h⟩
  · exact parseYMDdashTime_ok h
  rw [orElse_eq_some] at h
  rcases h with h | ⟨_, h⟩
  · exact parseMDYslashTime_ok h
  rw [orElse_eq_some] at h
  rcases h with h | ⟨_, h⟩
  · exact parseDMYdash_ok h
  · exact parseYMDslash_ok h

lemma parseMDslash_shape {year : Nat} {l : List Char} {dt : Date}
    (h : parseMDslash year l = some dt) :
    dt.year = year ∧ 1 ≤ dt.month ∧ dt.month ≤ 12 ∧ 1 ≤ dt.day ∧ dt.day ≤ 31 := by
  simp only [parseMDslash, Option.bind_eq_bind, Option.bind_eq_some] at h
  obtain ⟨⟨ms, ds⟩, _, m, _, d, _, hmk⟩ := h
  split at hmk
  · rename_i x heq
    cases hmk
    obtain ⟨hok, hx⟩ := mkChecked_some heq
    subst hx
    obtain ⟨_, _, h3, h4, h5, h6⟩ := dateOk_bounds hok
    exact ⟨rfl, h3, h4, h5, h6⟩
  · cases hmk

lemma parseDMslash_shape {year : Nat} {l : List Char} {dt : Date}
    (h : parseDMslash year l = some dt) :
    dt.year = year ∧ 1 ≤ dt.month ∧ dt.month ≤ 12 ∧ 1 ≤ dt.day ∧ dt.day ≤ 31 := by
  simp only [parseDMslash, Option.bind_eq_bind, Option.bind_eq_some] at h
  obtain ⟨⟨ds, ms⟩, _, d, _, m, _, hmk⟩ := h
  split at hmk
  · rename_i x heq
    cases hmk
    obtain ⟨hok, hx⟩ := mkChecked_some heq
    subst hx
    obtain ⟨_, _, h3, h4, h5, h6⟩ := dateOk_bounds hok
    exact ⟨rfl, h3, h4, h5, h6⟩
  · cases hmk

lemma parseMonthName_shape {names : List String} {year : Nat} {l : List Char} {dt : Date}
    (h : parseMonthName names year l = some dt) :
    dt.year = year ∧ 1 ≤ dt.month ∧ dt.month ≤ 12 ∧ 1 ≤ dt.day ∧ dt.day ≤ 31 := by
  simp only [parseMonthName, Option.bind_eq_bind] at h
  split at h
  · cases h
  · simp only [Option.bind_eq_some] at h
    obtain ⟨i, _, d, _, hmk⟩ := h
    split at hmk
    · rename_i x heq
      cases hmk
      obtain ⟨hok, hx⟩ := mkChecked_some heq
      subst hx
      obtain ⟨_, _, h3, h4, h5, h6⟩ := dateOk_bounds hok
      exact ⟨rfl, h3, h4, h5, h6⟩
    · cases hmk

lemma tryYearlessL_shape {year : Nat} {l : List Char} {dt : Date}
    (h : tryYearlessL year l = some dt) :
    dt.year = year ∧ 1 ≤ dt.month ∧ dt.month ≤ 12 ∧ 1 ≤ dt.day ∧ dt.day ≤ 31 := by
  simp only [tryYearlessL] at h
  rw [orElse_eq_some] at h
  rcases h with h | ⟨_, h⟩
  · exact parseMDslash_shape h
  rw [orElse_eq_some] at h
  rcases h with h | ⟨_, h⟩
  · exact parseDMslash_shape h
  rw [orElse_eq_some] at h
  rcases h with h | ⟨_, h⟩
  · exact parseMonthName_shape h
  · exact parseMonthName_shape h

lemma fmtDate_wellFormed (dt : Date) (h1000 : 1000 ≤ dt.year) (hy : dt.year ≤ 9999)
    (hm1 : 1 ≤ dt.month) (hm2 : dt.month ≤ 12)
    (hd1 : 1 ≤ dt.day) (hd2 : dt.day ≤ 31) :
    isWellFormedDate (fmtDate dt) = true := by
  obtain ⟨y, m, d⟩ := dt
  have h1000' : 1000 ≤ y := h1000
  have hy' : y ≤ 9999 := hy
  have hm1' : 1 ≤ m := hm1
  have hm2' : m ≤ 12 := hm2
  have hd1' : 1 ≤ d := hd1
  have hd2' : d ≤ 31 := hd2
  have hs : (fmtDate ⟨y, m, d⟩).toList =
      [Nat.digitChar (y / 1000 % 10), Nat.digitChar (y / 100 % 10),
       Nat.digitChar (y / 10 % 10), Nat.digitChar (y % 10), '-',
       Nat.digitChar (m / 10 % 10), Nat.digitChar (m % 10), '-',
       Nat.digitChar (d / 10 % 10), Nat.digitChar (d % 10)] := by
    show fmtDateL ⟨y, m, d⟩ = _
    unfold fmtDateL
    rw [show (⟨y, m, d⟩ : Date).year = y from rfl, yearDigits_eq_pad4 h1000']
    rfl
  unfold isWellFormedDate
  rw [hs]
  simp only [digitChar_mod_isDigit, digitChar_mod_toNat, beq_self_eq_true,
    Bool.and_eq_true, Bool.true_and, Bool.and_true, decide_eq_true_eq]
  omega

/-- C7 — on the claim's scope (inputs that are empty or that no supported
    pattern parses) both date normalizers return today's date formatted,
    which is a well-formed `YYYY-MM-DD` string.  Totality of the two Lean
    functions is the model of "never raises": the source catches every
    `ValueError` of `strptime` and the outer handlers absorb anything else.
    `today` is the ambient `datetime.now()` date: a valid calendar date
    whose year has four digits (the current year; glibc renders `%Y`
    unpadded only below the year 1000). -/
theorem date_normalizers_wellformed (today : Date) (year : Nat) (s : String)
    (htoday : dateOk today.year today.month today.day = true)
    (hty1000 : 1000 ≤ today.year)
    (hfull : tryFullFormatsL (pyStripL s.toList) = none)
    (hyearless : tryYearlessL year s.toList = none) :
    isWellFormedDate (parse_date today s) = true ∧
    isWellFormedDate (parse_date_with_year today year s) = true := by
  obtain ⟨_, hty, htm1, htm2, htd1, htd2⟩ := dateOk_bounds htoday
  have htodayWf : isWellFormedDate (fmtDate today) = true :=
    fmtDate_wellFormed today hty1000 hty htm1 htm2 htd1 htd2
  have hfullEq : parse_date today s = fmtDate today := by
    unfold parse_date
    split
    · rfl
    · rw [hfull]
  have hyEq : parse_date_with_year today year s = fmtDate today := by
    unfold parse_date_with_year
    rw [hyearless]
    show parse_date today s = fmtDate today
    exact hfullEq
  rw [hfullEq, hyEq]
  exact ⟨htodayWf, htodayWf⟩

/-- C7 witness: concrete instance at `today = 2024-06-15`, `year = 2024`,
    input `"not a date"` (parsed by no pattern). -/
theorem date_normalizers_wellformed_witness :
    isWellFormedDate (parse_date ⟨2024, 6, 15⟩ "not a date") = true ∧
    isWellFormedDate (parse_date_with_year ⟨2024, 6, 15⟩ 2024 "not a date") = true :=
  date_normalizers_wellformed ⟨2024, 6, 15⟩ 2024 "not a date" (by decide) (by decide)
    (by decide) (by decide)

/-- C8 counterexample — `"0123-01-01"` parses under `%Y-%m-%d` (the `%Y`
    token is exactly four digits), so it is in the claim's scope, but glibc
    `strftime('%Y')` renders year 123 without padding: the first
    normalization yields `"123-01-01"`, which no supported format re-parses
    (a three-digit year matches no `%Y`), so the second normalization falls
    back to today's date and idempotence fails on the program. -/
theorem fullDate_idempotence_counterexample :
    tryFullFormatsL (pyStripL ("0123-01-01" : String).toList) =
      some ⟨123, 1, 1⟩ ∧
    parse_date ⟨2024, 6, 15⟩ "0123-01-01" = "123-01-01" ∧
    parse_date ⟨2024, 6, 15⟩ (parse_date ⟨2024, 6, 15⟩ "0123-01-01") = "2024-06-15" ∧
    ("2024-06-15" : String) ≠ "123-01-01" := by
  refine ⟨by decide, by decide, by decide, by decide⟩

/-- C8 amended — `normalizeFullDate` is idempotent on every input that the
    format loop parses to a date whose year is at least 1000 (so that
    `strftime('%Y')` renders exactly four digits); for parsed years below
    1000 the unpadded output re-parses under no supported format and the
    second normalization falls back to today's date instead. -/
theorem normalizeFullDate_idempotent (today : Date) (s : String) (d : Date)
    (hd : tryFullFormatsL (pyStripL s.toList) = some d)
    (h1000 : 1000 ≤ d.year) :
    parse_date today (parse_date today s) = parse_date today s := by
  have hok := tryFullFormatsL_ok hd
  have h1 : parse_date today s = fmtDate d := by
    unfold parse_date
    have hne : (pyStripL s.toList).isEmpty = false := by
      cases hemp : (pyStripL s.toList).isEmpty
      · rfl
      · rw [List.isEmpty_iff] at hemp
        have hnil : tryFullFormatsL ([] : List Char) = none := rfl
        rw [hemp, hnil] at hd
        cases hd
    have hcond : ¬((pyStripL s.toList).isEmpty = true) := by
      intro hc
      rw [hc] at hne
      cases hne
    rw [if_neg hcond, hd]
  have hself : pyStripL (fmtDate d).toList = fmtDateL d := by
    have htl : (fmtDate d).toList = fmtDateL d := rfl
    rw [htl]
    exact pyStripL_eq_self (fmtDateL_not_ws d)
  have h2 : parse_date today (fmtDate d) = fmtDate d := by
    unfold parse_date
    rw [hself]
    have hfd : fmtDateL d = pad4L d.year ++ '-' :: (pad2L d.month ++ '-' :: pad2L d.day) := by
      unfold fmtDateL
      rw [yearDigits_eq_pad4 h1000]
    have hne : (fmtDateL d).isEmpty = false := by
      rw [hfd]
      simp [pad4L]
    simp [hne, tryFullFormatsL_fmt d hok h1000]
  rw [h1, h2]

/-- C8 amended witness: `"03/01/2024"` parses under `%m/%d/%Y` to the year
    2024 (four digits), and normalizing twice equals normalizing once. -/
theorem normalizeFullDate_idempotent_witness :
    parse_date ⟨2024, 6, 15⟩ (parse_date ⟨2024, 6, 15⟩ "03/01/2024") =
      parse_date ⟨2024, 6, 15⟩ "03/01/2024" :=
  normalizeFullDate_idempotent ⟨2024, 6, 15⟩ "03/01/2024" ⟨2024, 3, 1⟩
    (by decide) (by decide)

/-- C3 counterexample — for the token `"garbage"` no year-less pattern and no
    full-date pattern parses, yet `_parse_date_with_year` returns the current
    date (the `_parse_date` fallback of line 374), not `"<year>-01-01"` as
    the claim states: with `today = 2024-06-15` and `year = 2024` the result
    is `"2024-06-15"`, and `"2024-01-01"` would differ. -/
theorem yearless_total_failure_counterexample :
    parse_date_with_year ⟨2024, 6, 15⟩ 2024 "garbage" = "2024-06-15" ∧
    ("2024-06-15" : String) ≠ "2024-01-01" := by
  constructor
  · decide
  · decide

/-- C3 amended — when no year-less pattern parses the token and the
    full-date fallback does not parse it either, `_parse_date_with_year`
    returns the *current date* (the fallback of `_parse_date`); the
    `f"{year}-01-01"` arm at line 377 is dead code, reachable only through
    an exception that cannot occur. -/
theorem yearless_total_failure_returns_today (today : Date) (year : Nat) (s : String)
    (h1 : tryYearlessL year s.toList = none)
    (h2 : tryFullFormatsL (pyStripL s.toList) = none) :
    parse_date_with_year today year s = fmtDate today := by
  unfold parse_date_with_year
  rw [h1]
  show parse_date today s = fmtDate today
  unfold parse_date
  split
  · rfl
  · rw [h2]

/-- C3 amended witness: the `"garbage"` token at `today = 2024-06-15`,
    `year = 2024`. -/
theorem yearless_total_failure_returns_today_witness :
    parse_date_with_year ⟨2024, 6, 15⟩ 2024 "garbage" = fmtDate ⟨2024, 6, 15⟩ :=
  yearless_total_failure_returns_today ⟨2024, 6, 15⟩ 2024 "garbage"
    (by decide) (by decide)

/-! ## CSV parser claims -/

lemma processRow1_some {cfg : Csv1Config} {header row : List String} {e : Entry}
    (h : processRow1 cfg header row = some e) :
    e.order_id ≠ "" ∧ isNumericToken e.order_id = true := by
  unfold processRow1 at h
  split at h
  · split at h
    · cases h
    · rename_i hblank
      split at h
      · cases h
      · rename_i hnum
        split at h
        · cases h
          simp only [Bool.or_eq_true, decide_eq_true_eq, not_or] at hblank
          simp only [Bool.not_eq_true, Bool.not_eq_eq_eq_not, Bool.not_true,
            Bool.not_eq_false] at hnum
          exact ⟨hblank.1, hnum⟩
        · cases h
  · cases h

lemma processRow2_some {cfg : Csv2Config} {header row : List String} {e : Entry}
    (h : processRow2 cfg header row = some e) :
    e.order_id ≠ "" ∧ isNumericToken e.order_id = true := by
  unfold processRow2 at h
  split at h
  · split at h
    · cases h
    · rename_i hblank
      split at h
      · cases h
      · rename_i hnum
        split at h
        · cases h
        · split at h
          · cases h
          · split at h
            · cases h
            · split at h
              · cases h
                simp only [Bool.or_eq_true, decide_eq_true_eq, not_or] at hblank
                simp only [Bool.not_eq_true, Bool.not_eq_eq_eq_not, Bool.not_true,
                  Bool.not_eq_false] at hnum
                exact ⟨hblank.1, hnum⟩
              · cases h
  · cases h

/-- C4 — every record either parser outputs has a non-empty, numeric-token
    `order_id` (so any row whose id field is blank, a label like "Total", or
    otherwise not a numeric token contributes no record): the gate is
    `order_id.replace('.', '', 1).isdigit()` after the emptiness check, for
    every configuration and every input. -/
theorem parser_output_orderId_numeric (cfg1 : Csv1Config) (cfg2 : Csv2Config)
    (c1 c2 : String) :
    (∀ e ∈ parse_csv_source1 cfg1 c1, e.order_id ≠ "" ∧ isNumericToken e.order_id = true) ∧
    (∀ e ∈ parse_csv_source2 cfg2 c2, e.order_id ≠ "" ∧ isNumericToken e.order_id = true) := by
  constructor
  · intro e he
    unfold parse_csv_source1 at he
    split at he
    · cases he
    · rw [List.mem_filterMap] at he
      obtain ⟨row, _, hrow⟩ := he
      exact processRow1_some hrow
  · intro e he
    unfold parse_csv_source2 at he
    split at he
    · cases he
    · unfold rowsToEntries2 at he
      rw [List.mem_filterMap] at he
      obtain ⟨row, _, hrow⟩ := he
      exact processRow2_some hrow

/-- C4 witness: a concrete record produced by Parser A from a one-row CSV
    satisfies the invariant. -/
theorem parser_output_orderId_numeric_witness :
    (⟨"S1", 1, "7", "2024-01-01"⟩ : Entry).order_id ≠ "" ∧
    isNumericToken (⟨"S1", 1, "7", "2024-01-01"⟩ : Entry).order_id = true :=
  (parser_output_orderId_numeric ⟨"S1", "amt", "id", "date", ⟨2024, 6, 15⟩⟩
      ⟨"S2", "amt", "id", "date", 1, ⟨2024, 6, 15⟩⟩
      "id,amt,date\n7,1,2024-01-01\n" "").1
    ⟨"S1", 1, "7", "2024-01-01"⟩ (by decide)

/-- C9 — Parser A with mapping `amount="amt"`, `id="id"`, `date="date"` on
    the input `id,amt,date\n1001,25.50,2024-03-01\nTotal,,\n` yields exactly
    one record: order id `"1001"`, amount `25.50`, date `"2024-03-01"` (the
    `Total` row is dropped by the empty-date check of line 249), for any
    source label and any current date. -/
theorem parser_a_concrete_example (src : String) (today : Date) :
    parse_csv_source1 ⟨src, "amt", "id", "date", today⟩
      "id,amt,date\n1001,25.50,2024-03-01\nTotal,,\n" =
      [⟨src, mkRat 51 2, "1001", "2024-03-01"⟩] := rfl

lemma digit_not_ws {c : Char} (h : c.isDigit = true) : c.isWhitespace = false := by
  cases hw : c.isWhitespace
  · rfl
  · exfalso
    have hw' := hw
    simp [Char.isWhitespace] at hw'
    rcases hw' with ((rfl | rfl) | rfl) | rfl <;> exact absurd h (by decide)

lemma pyIsdigit_strip {s : String} (h : pyIsdigit s = true) :
    pyStrip s = s ∧ s ≠ "" := by
  simp only [pyIsdigit, Bool.and_eq_true, Bool.not_eq_true', List.isEmpty_eq_false,
    List.all_eq_true] at h
  constructor
  · show String.mk (pyStripL s.toList) = s
    rw [pyStripL_eq_self (fun c hc => digit_not_ws (h.2 c hc))]
    rfl
  · intro hs
    exact h.1 (by rw [hs]; rfl)

lemma le_foldr_max (l : List Nat) (x : Nat) (hx : x ∈ l) : x ≤ l.foldr max 0 := by
  induction l with
  | nil => cases hx
  | cons a t ih =>
    rcases List.mem_cons.mp hx with rfl | hmem
    · exact le_max_left _ _
    · exact le_trans (ih hmem) (le_max_right _ _)

lemma freshPageId_gt (store : List NotionPage) (p : NotionPage) (hp : p ∈ store) :
    p.pageId < freshPageId store :=
  Nat.lt_succ_of_le (le_foldr_max _ _ (List.mem_map_of_mem (·.pageId) hp))

lemma map_id_of_eq {α : Type} (l : List α) (f : α → α) (h : ∀ a ∈ l, f a = a) :
    l.map f = l := by
  induction l with
  | nil => rfl
  | cons a t ih =>
    rw [List.map_cons, h a (List.mem_cons_self a t),
      ih (fun b hb => h b (List.mem_cons_of_mem a hb))]

lemma filter_map_update (k : Int) (pr : PageProps) (pid : Nat) (l : List NotionPage)
    (hn : (l.map (·.pageId)).Nodup)
    (p₀ : NotionPage) (hp₀ : p₀ ∈ l) (hfk : (p₀.props.orderIdNum == k) = true)
    (hpid : p₀.pageId = pid)
    (hwf : (l.filter (fun p => p.props.orderIdNum == k)).length ≤ 1)
    (hprk : (pr.orderIdNum == k) = true) :
    (l.map (fun p => if p.pageId = pid then { p with props := pr } else p)).filter
      (fun p => p.props.orderIdNum == k) = [⟨pid, pr⟩] := by
  induction l with
  | nil => cases hp₀
  | cons a t ih =>
    have hn' := hn
    simp only [List.map_cons, List.nodup_cons, List.mem_map, not_exists, not_and] at hn'
    rcases List.mem_cons.mp hp₀ with rfl | hmem
    · -- the found page is the head
      have hupd : (if p₀.pageId = pid then { p₀ with props := pr } else p₀) =
          (⟨pid, pr⟩ : NotionPage) := by
        rw [if_pos hpid]
        rw [show ({ p₀ with props := pr } : NotionPage) = ⟨p₀.pageId, pr⟩ from rfl, hpid]
      have htid : ∀ q ∈ t, q.pageId ≠ pid := by
        intro q hq hqe
        exact hn'.1 q hq (by rw [hqe, hpid])
      have htmap :
          t.map (fun p => if p.pageId = pid then { p with props := pr } else p) = t :=
        map_id_of_eq _ _ (fun q hq => if_neg (htid q hq))
      have htfilter : t.filter (fun p => p.props.orderIdNum == k) = [] := by
        rw [@List.filter_cons_of_pos NotionPage (fun p => p.props.orderIdNum == k) p₀ t hfk]
          at hwf
        simp only [List.length_cons] at hwf
        exact List.length_eq_zero.mp (by omega)
      rw [List.map_cons, hupd, htmap,
        @List.filter_cons_of_pos NotionPage (fun p => p.props.orderIdNum == k) ⟨pid, pr⟩ t hprk,
        htfilter]
    · -- the found page sits in the tail
      have hapid : a.pageId ≠ pid := by
        intro he
        exact hn'.1 p₀ hmem (by rw [hpid, ← he])
      have hfa : (a.props.orderIdNum == k) = false := by
        cases hfa : (a.props.orderIdNum == k)
        · rfl
        · exfalso
          rw [@List.filter_cons_of_pos NotionPage (fun p => p.props.orderIdNum == k) a t hfa]
            at hwf
          simp only [List.length_cons] at hwf
          have hmemf : p₀ ∈ t.filter (fun p => p.props.orderIdNum == k) :=
            List.mem_filter.mpr ⟨hmem, hfk⟩
          have := List.length_pos.mpr (List.ne_nil_of_mem hmemf)
          omega
      have hfa' : ¬((a.props.orderIdNum == k) = true) := by
        rw [hfa]; exact Bool.false_ne_true
      have hwf' : (t.filter (fun p => p.props.orderIdNum == k)).length ≤ 1 := by
        rw [@List.filter_cons_of_neg NotionPage (fun p => p.props.orderIdNum == k) a t hfa']
          at hwf
        exact hwf
      rw [List.map_cons, if_neg hapid,
        @List.filter_cons_of_neg NotionPage (fun p => p.props.orderIdNum == k) a
          (t.map (fun p => if p.pageId = pid then { p with props := pr } else p)) hfa']
      exact ih (List.Nodup.of_cons hn) hmem hwf'

lemma map_congr_fun {α β : Type} (l : List α) (f g : α → β)
    (h : ∀ a ∈ l, f a = g a) : l.map f = l.map g := by
  induction l with
  | nil => rfl
  | cons a t ih =>
    rw [List.map_cons, List.map_cons, h a (List.mem_cons_self a t),
      ih (fun b hb => h b (List.mem_cons_of_mem a hb))]

/-- One upsert of a digit-keyed entry leaves exactly one page under that key,
    carrying exactly the written properties; it preserves page-id
    distinctness, and when a page already existed under the key the store's
    size is unchanged (update in place, no create). -/
lemma upsert_step (todayS : String) (store : List NotionPage) (e : Entry)
    (hdig : pyIsdigit e.order_id = true)
    (hnodup : (store.map (·.pageId)).Nodup)
    (hwf : (store.filter
      (fun p => p.props.orderIdNum == pyIntOr0 e.order_id)).length ≤ 1) :
    (∃ pid, (create_or_update_notion_entry todayS store e).filter
        (fun p => p.props.orderIdNum == pyIntOr0 e.order_id) =
        [⟨pid, mkProps todayS e⟩]) ∧
    ((create_or_update_notion_entry todayS store e).map (·.pageId)).Nodup ∧
    (store.filter (fun p => p.props.orderIdNum == pyIntOr0 e.order_id) ≠ [] →
      (create_or_update_notion_entry todayS store e).length = store.length) := by
  obtain ⟨hstrip, hne⟩ := pyIsdigit_strip hdig
  have hcond : ¬((e.order_id = "" || pyStrip e.order_id = "") = true) := by
    simp only [Bool.or_eq_true, decide_eq_true_eq]
    rw [hstrip]
    simp [hne]
  unfold create_or_update_notion_entry
  rw [if_neg hcond]
  cases hcheck : check_notion_entry_exists store e.order_id with
  | none =>
    have hfind :
        store.find? (fun p => p.props.orderIdNum == pyIntOr0 e.order_id) = none := by
      unfold check_notion_entry_exists at hcheck
      exact Option.map_eq_none'.mp hcheck
    have hfilter :
        store.filter (fun p => p.props.orderIdNum == pyIntOr0 e.order_id) = [] := by
      rw [List.filter_eq_nil_iff]
      exact fun p hp => by simpa using List.find?_eq_none.mp hfind p hp
    have hnew : (((⟨freshPageId store, mkProps todayS e⟩ : NotionPage)).props.orderIdNum ==
        pyIntOr0 e.order_id) = true := by
      simp [mkProps]
    refine ⟨⟨freshPageId store, ?_⟩, ?_, ?_⟩
    · rw [List.filter_append, hfilter,
        @List.filter_cons_of_pos NotionPage
          (fun p => p.props.orderIdNum == pyIntOr0 e.order_id)
          ⟨freshPageId store, mkProps todayS e⟩ [] hnew]
      rfl
    · rw [List.map_append]
      refine List.Nodup.append hnodup (by simp) ?_
      intro x hx hx'
      rcases List.mem_map.mp hx with ⟨p, hp, rfl⟩
      simp only [List.map_cons, List.map_nil, List.mem_singleton] at hx'
      exact absurd hx' (Nat.ne_of_lt (freshPageId_gt store p hp))
    · intro hcontra
      exact absurd hfilter hcontra
  | some pid =>
    obtain ⟨p₀, hfind₀, hpid₀⟩ : ∃ p₀,
        store.find? (fun p => p.props.orderIdNum == pyIntOr0 e.order_id) = some p₀ ∧
        p₀.pageId = pid := by
      unfold check_notion_entry_exists at hcheck
      exact Option.map_eq_some'.mp hcheck
    have hfk := List.find?_some hfind₀
    have hmem := List.mem_of_find?_eq_some hfind₀
    have hprk : ((mkProps todayS e).orderIdNum == pyIntOr0 e.order_id) = true := by
      simp [mkProps]
    have hmain := filter_map_update (pyIntOr0 e.order_id) (mkProps todayS e) pid store
      hnodup p₀ hmem hfk hpid₀ hwf hprk
    refine ⟨⟨pid, hmain⟩, ?_, ?_⟩
    · have hpg : (store.map (fun p => if p.pageId = pid then
          { p with props := mkProps todayS e } else p)).map (·.pageId) =
          store.map (·.pageId) := by
        rw [List.map_map]
        exact map_congr_fun _ _ _ (fun p _ => by by_cases hc : p.pageId = pid <;> simp [hc])
      rw [hpg]
      exact hnodup
    · intro _
      exact List.length_map store _

/-- C1 — starting from any store with distinct page ids and at most one page
    under the entry's numeric key (the invariant the engine itself maintains),
    upserting twice with the same digit-string `orderId` and two amounts
    leaves exactly one page under that key, that page carries the second
    amount, and the second call changes no store size (update path, never
    create). -/
theorem upsert_twice_same_orderId (todayS : String) (store : List NotionPage)
    (oid src₁ src₂ dt₁ dt₂ : String) (a₁ a₂ : Rat)
    (hdig : pyIsdigit oid = true)
    (hamt : a₁ ≠ a₂)
    (hnodup : (store.map (·.pageId)).Nodup)
    (hwf : (store.filter (fun p => p.props.orderIdNum == pyIntOr0 oid)).length ≤ 1) :
    ((create_or_update_notion_entry todayS
        (create_or_update_notion_entry todayS store ⟨src₁, a₁, oid, dt₁⟩)
        ⟨src₂, a₂, oid, dt₂⟩).filter
      (fun p => p.props.orderIdNum == pyIntOr0 oid)).length = 1 ∧
    (∀ p ∈ (create_or_update_notion_entry todayS
        (create_or_update_notion_entry todayS store ⟨src₁, a₁, oid, dt₁⟩)
        ⟨src₂, a₂, oid, dt₂⟩).filter
      (fun p => p.props.orderIdNum == pyIntOr0 oid),
      p.props.amount = a₂) ∧
    (create_or_update_notion_entry todayS
        (create_or_update_notion_entry todayS store ⟨src₁, a₁, oid, dt₁⟩)
        ⟨src₂, a₂, oid, dt₂⟩).length =
      (create_or_update_notion_entry todayS store ⟨src₁, a₁, oid, dt₁⟩).length := by
  obtain ⟨⟨pid₁, hf₁⟩, hnd₁, _⟩ :=
    upsert_step todayS store ⟨src₁, a₁, oid, dt₁⟩ hdig hnodup hwf
  have hwf₁ : ((create_or_update_notion_entry todayS store ⟨src₁, a₁, oid, dt₁⟩).filter
      (fun p => p.props.orderIdNum == pyIntOr0 oid)).length ≤ 1 := by
    rw [hf₁]
    simp
  obtain ⟨⟨pid₂, hf₂⟩, hnd₂, hlen₂⟩ :=
    upsert_step todayS (create_or_update_notion_entry todayS store ⟨src₁, a₁, oid, dt₁⟩)
      ⟨src₂, a₂, oid, dt₂⟩ hdig hnd₁ hwf₁
  refine ⟨?_, ?_, ?_⟩
  · rw [hf₂]
    rfl
  · intro p hp
    rw [hf₂] at hp
    rcases List.mem_singleton.mp hp with rfl
    rfl
  · refine hlen₂ ?_
    rw [hf₁]
    exact List.cons_ne_nil _ _

/-- C1 witness: the empty store, order id `"1001"`, amounts 10 then 20. -/
theorem upsert_twice_same_orderId_witness :
    ((create_or_update_notion_entry "2024-06-15"
        (create_or_update_notion_entry "2024-06-15" []
          ⟨"S1", mkRat 10 1, "1001", "2024-03-01"⟩)
        ⟨"S1", mkRat 20 1, "1001", "2024-03-01"⟩).filter
      (fun p => p.props.orderIdNum == pyIntOr0 "1001")).length = 1 ∧
    (∀ p ∈ (create_or_update_notion_entry "2024-06-15"
        (create_or_update_notion_entry "2024-06-15" []
          ⟨"S1", mkRat 10 1, "1001", "2024-03-01"⟩)
        ⟨"S1", mkRat 20 1, "1001", "2024-03-01"⟩).filter
      (fun p => p.props.orderIdNum == pyIntOr0 "1001"),
      p.props.amount = mkRat 20 1) ∧
    (create_or_update_notion_entry "2024-06-15"
        (create_or_update_notion_entry "2024-06-15" []
          ⟨"S1", mkRat 10 1, "1001", "2024-03-01"⟩)
        ⟨"S1", mkRat 20 1, "1001", "2024-03-01"⟩).length =
      (create_or_update_notion_entry "2024-06-15" []
        ⟨"S1", mkRat 10 1, "1001", "2024-03-01"⟩).length :=
  upsert_twice_same_orderId "2024-06-15" [] "1001" "S1" "S1" "2024-03-01" "2024-03-01"
    (mkRat 10 1) (mkRat 20 1) (by decide) (by decide) (by simp) (by decide)

/-- C10 — an entry whose `order_id` is non-empty but not a pure digit string
    (for example the fractional token `"25.5"`, which both parsers accept) is
    looked up under the sentinel key `0` and written with id property `0`:
    the original fractional id is never persisted, and every such record
    collapses onto key `0`. -/
theorem fractional_orderId_collapses_to_zero (e : Entry) (store : List NotionPage)
    (todayS : String)
    (hne : pyStrip e.order_id ≠ "")
    (hnd : pyIsdigit e.order_id = false) :
    pyIntOr0 e.order_id = 0 ∧
    check_notion_entry_exists store e.order_id =
      (store.find? (fun p => p.props.orderIdNum == 0)).map (·.pageId) ∧
    ∀ p ∈ create_or_update_notion_entry todayS store e,
      p ∈ store ∨ p.props.orderIdNum = 0 := by
  have h0 : pyIntOr0 e.order_id = 0 := by
    simp [pyIntOr0, hnd]
  refine ⟨h0, ?_, ?_⟩
  · unfold check_notion_entry_exists
    rw [h0]
  · intro p hp
    unfold create_or_update_notion_entry at hp
    split at hp
    · exact Or.inl hp
    · split at hp
      · rename_i pid hpid
        rcases List.mem_map.mp hp with ⟨q, hq, hpq⟩
        by_cases hqid : q.pageId = pid
        · rw [if_pos hqid] at hpq
          right
          rw [← hpq]
          show (mkProps todayS e).orderIdNum = 0
          simp [mkProps, h0]
        · rw [if_neg hqid] at hpq
          exact Or.inl (hpq ▸ hq)
      · rcases List.mem_append.mp hp with hmem | hmem
        · exact Or.inl hmem
        · right
          rw [List.mem_singleton.mp hmem]
          show (mkProps todayS e).orderIdNum = 0
          simp [mkProps, h0]

/-- C10 witness: the entry with fractional order id `"25.5"` against the
    empty store. -/
theorem fractional_orderId_collapses_to_zero_witness :
    pyIntOr0 (⟨"S1", mkRat 1 1, "25.5", "2024-03-01"⟩ : Entry).order_id = 0 ∧
    check_notion_entry_exists [] (⟨"S1", mkRat 1 1, "25.5", "2024-03-01"⟩ : Entry).order_id =
      (([] : List NotionPage).find? (fun p => p.props.orderIdNum == 0)).map (·.pageId) ∧
    ∀ p ∈ create_or_update_notion_entry "2024-06-15" []
        ⟨"S1", mkRat 1 1, "25.5", "2024-03-01"⟩,
      p ∈ ([] : List NotionPage) ∨ p.props.orderIdNum = 0 :=
  fractional_orderId_collapses_to_zero ⟨"S1", mkRat 1 1, "25.5", "2024-03-01"⟩ []
    "2024-06-15" (by decide) (by decide)

/-! ## Attachment extraction claims -/

/-- C2 counterexample — the code does *not* recurse into nested sub-parts:
    with a single top-level container part holding a nested `report.csv`
    part whose attachment fetch succeeds, `extract_attachment` returns
    absent, while the pre-order whole-tree scan the claim describes returns
    the decoded text. -/
theorem attachment_no_recursion_counterexample :
    extract_attachment (fun a => if a = "a1" then some "id,amt\n1,2\n" else none)
      [Part.node "cover.txt" none [Part.node "report.csv" (some "a1") []]] = none ∧
    extractAttachmentPreorder (fun a => if a = "a1" then some "id,amt\n1,2\n" else none)
      [Part.node "cover.txt" none [Part.node "report.csv" (some "a1") []]] =
      some "id,amt\n1,2\n" := by
  constructor
  · rfl
  · simp [extractAttachmentPreorder,
      show pyEndsWith "report.csv" ".csv" = true from by decide]

/-- C2 amended — `extract_attachment` scans only the *top-level* parts of
    the payload (no recursion into nested sub-parts): it returns the fetched
    text of the first top-level part whose filename ends in `.csv` and that
    carries a truthy attachment reference (absent if that fetch/decode
    fails, since the surrounding handler catches the exception), skips
    `.csv` parts without a reference, and returns absent when no top-level
    part qualifies.  Totality of the model is the "never raises" guarantee. -/
theorem extract_attachment_top_level_only (fetch : String → Option String)
    (parts : List Part) :
    extract_attachment fetch parts =
      (parts.find? csvPart).bind (fun p => p.attachmentId.bind fetch) := by
  induction parts with
  | nil => rfl
  | cons p rest ih =>
    obtain ⟨f, aid, kids⟩ := p
    by_cases hcsv : pyEndsWith f ".csv" = true
    · cases aid with
      | none =>
        have hcp : csvPart (Part.node f none kids) = false := by
          simp [csvPart, Part.attachmentId]
        rw [show extract_attachment fetch (Part.node f none kids :: rest) =
            if pyEndsWith f ".csv" = true then extract_attachment fetch rest
            else extract_attachment fetch rest from rfl, ite_self]
        rw [List.find?_cons_of_neg _ (by simp [hcp])]
        exact ih
      | some a =>
        by_cases ha : a = ""
        · subst ha
          have hcp : csvPart (Part.node f (some "") kids) = false := by
            simp [csvPart, Part.attachmentId]
          rw [show extract_attachment fetch (Part.node f (some "") kids :: rest) =
              if pyEndsWith f ".csv" = true then extract_attachment fetch rest
              else extract_attachment fetch rest from rfl, ite_self]
          rw [List.find?_cons_of_neg _ (by simp [hcp])]
          exact ih
        · have hcp : csvPart (Part.node f (some a) kids) = true := by
            simp [csvPart, Part.attachmentId, Part.filename, hcsv, ha]
          rw [show extract_attachment fetch (Part.node f (some a) kids :: rest) =
              if pyEndsWith f ".csv" = true then
                (if a = "" then extract_attachment fetch rest else fetch a)
              else extract_attachment fetch rest from rfl,
            if_pos hcsv, if_neg ha]
          rw [List.find?_cons_of_pos _ hcp]
          rfl
    · have hcp : csvPart (Part.node f aid kids) = false := by
        simp [csvPart, Part.filename, hcsv]
      cases aid with
      | none =>
        rw [show extract_attachment fetch (Part.node f none kids :: rest) =
            if pyEndsWith f ".csv" = true then extract_attachment fetch rest
            else extract_attachment fetch rest from rfl, ite_self]
        rw [List.find?_cons_of_neg _ (by simp [hcp])]
        exact ih
      | some a =>
        rw [show extract_attachment fetch (Part.node f (some a) kids :: rest) =
            if pyEndsWith f ".csv" = true then
              (if a = "" then extract_attachment fetch rest else fetch a)
            else extract_attachment fetch rest from rfl, if_neg hcsv]
        rw [List.find?_cons_of_neg _ (by simp [hcp])]
        exact ih

/-! ## Link extraction claims -/

/-- C5 counterexample — a plain-text body whose storage URL ends exactly at
    the domain: the host contains `s3.amazonaws.com` and carries no `.csv`,
    the other URL is a generic one containing "export", yet the code returns
    the export URL.  The storage-domain regex
    `https?://[^\s<>"]*s3\.amazonaws\.com[^\s<>"]+` demands at least one
    character *after* the domain, so step 4 does not match and the weak
    keyword rule of step 5 wins. -/
theorem s3_before_export_counterexample :
    extract_csv_link_textOnly
      ["https://bucket.s3.amazonaws.com", "https://example.com/export"] =
      some "https://example.com/export" ∧
    containsSub (lowerL "https://bucket.s3.amazonaws.com".toList)
      "s3.amazonaws.com".toList = true ∧
    containsSub (lowerL "https://bucket.s3.amazonaws.com".toList)
      ".csv".toList = false ∧
    containsSub (lowerL "https://example.com/export".toList)
      "export".toList = true ∧
    some "https://example.com/export" ≠ some "https://bucket.s3.amazonaws.com" := by
  refine ⟨by decide, by decide, by decide, by decide, by decide⟩

/-- C5 amended — when no token of the plain text matches the `.csv` URL
    pattern and some token matches the storage-domain pattern (which
    requires at least one character after `s3.amazonaws.com`), the first
    such storage URL is returned, taking precedence over any token matching
    only the weak csv/export keyword rule (step 4 before step 5). -/
theorem s3_link_precedence (toks : List String) (u₁ u₂ : String)
    (h₁ : toks.find? s3Tok = some u₁)
    (hnocsv : ∀ t ∈ toks, csvLinkTok t = false)
    (h₂ : u₂ ∈ toks) (hexp : keywordTok u₂ = true) :
    extract_csv_link_textOnly toks = some u₁ := by
  unfold extract_csv_link_textOnly textLinkScan
  rw [List.find?_eq_none.mpr (fun t ht => by simp [hnocsv t ht]), h₁]

/-- C5 amended witness: an S3 URL with a path next to an export URL. -/
theorem s3_link_precedence_witness :
    extract_csv_link_textOnly
      ["https://bucket.s3.amazonaws.com/report", "https://example.com/export"] =
      some "https://bucket.s3.amazonaws.com/report" :=
  s3_link_precedence
    ["https://bucket.s3.amazonaws.com/report", "https://example.com/export"]
    "https://bucket.s3.amazonaws.com/report" "https://example.com/export"
    (by decide) (by decide) (by decide) (by decide)

end EmailCsv
